import Mathlib

/-!
Verification of the easybets-api repository: a shallow embedding in Lean 4 of
the odds-extraction/alignment logic of `app.py` (scrape_sportpesa,
generate_mock_data, the /api/odds and /api/odds/id handlers) and of the
heuristic predictor of `ml_predictions.py` (predict_match_outcome), together
with theorems settling the frozen claims about the natural-language spec.

Numbers are modelled as exact rationals (Python floats are IEEE doubles; all
the constants of this program are small decimal literals and the claims under
study are algebraic, so ℚ is the faithful carrier).  Python exceptions are
modelled by `Option`: a function that can raise returns `none` on the raising
executions.  The random perturbation of the predictor is modelled by three
explicit delta parameters, each bounded by 1/20 in the theorems, matching
`random.uniform(-0.05, 0.05)`.

A note on `app.py`: the file as committed has an orphan `except Exception`
clause at line 181 whose matching `try:` is missing (the module does not even
compile as Python - a SyntaxError).  The spec, and the code's own comment
"Return mock data when scraping fails", make the evident intent unambiguous:
the scraping body is wrapped in a `try:` whose handler returns the mock data.
The embedding below models that evidently intended control flow; the defect
itself is reported with the claim about the fallback path.
-/

/-! ## Modelled Python builtins (string parsing) -/

/-- Value of a list of decimal digit characters, most significant first.
Models the digit accumulation of Python's `int`/`float` parsing. -/
def digitsToNat (cs : List Char) : ℕ :=
  cs.foldl (fun acc c => acc * 10 + (c.toNat - 48)) 0

/-- Split a character list at the first dot character: returns the part
before the first dot and, when a dot is present, the part after it. -/
def splitAtDot : List Char → List Char × Option (List Char)
  | [] => ([], none)
  | c :: rest =>
    if c = '.' then ([], some rest)
    else
      let p := splitAtDot rest
      (c :: p.1, p.2)

/-- Body of `pyFloat` after the optional sign: digits with at most one dot
and at least one digit in total. -/
def pyFloatBody (cs : List Char) : Option ℚ :=
  match splitAtDot cs with
  | (ip, none) =>
    if ip ≠ [] ∧ ip.all Char.isDigit then some (digitsToNat ip) else none
  | (ip, some fp) =>
    if (ip ++ fp) ≠ [] ∧ (ip ++ fp).all Char.isDigit then
      some ((digitsToNat ip : ℚ) + (digitsToNat fp : ℚ) / 10 ^ fp.length)
    else none

/-- Models Python's `float(s)` restricted to plain decimal literals: an
optional sign followed by ASCII digits with at most one decimal point and at
least one digit.  Exponents, `inf`/`nan`, surrounding whitespace and digit
underscores are not modelled: no string fed to `float` by this program uses
them.  `none` models `float` raising `ValueError`. -/
def pyFloat (s : String) : Option ℚ :=
  match s.data with
  | [] => none
  | c :: rest =>
    if c = '-' then (pyFloatBody rest).map (fun q => -q)
    else if c = '+' then pyFloatBody rest
    else pyFloatBody (c :: rest)

/-- Models Python's `int(s)` restricted to plain integer literals: an
optional sign followed by at least one ASCII digit.  Surrounding whitespace
and digit underscores are not modelled.  `none` models `ValueError`. -/
def pyInt (s : String) : Option ℤ :=
  match s.data with
  | [] => none
  | c :: rest =>
    if c = '-' then
      if rest ≠ [] ∧ rest.all Char.isDigit then some (-(digitsToNat rest : ℤ)) else none
    else if c = '+' then
      if rest ≠ [] ∧ rest.all Char.isDigit then some (digitsToNat rest) else none
    else
      if (c :: rest).all Char.isDigit then some (digitsToNat (c :: rest)) else none

/-- Remove the first dot character of a list, keeping everything else.
Models Python's `s.replace(".", "", 1)`. -/
def removeFirstDot : List Char → List Char
  | [] => []
  | c :: rest => if c = '.' then rest else c :: removeFirstDot rest

/-- Models the numeric-token filter of app.py line 135:
`el.replace(".", "", 1).isdigit()` - after deleting the first dot, the
remainder is nonempty and all ASCII digits.  (Python's `isdigit` also
accepts non-ASCII digit characters; those do not occur here.) -/
def isNumericToken (s : String) : Bool :=
  let r := removeFirstDot s.data
  r ≠ [] && r.all Char.isDigit

/-- Consume two digit characters, models `\d`x2 of the timestamp pattern. -/
def twoDigits : List Char → Option (List Char)
  | a :: b :: rest => if a.isDigit ∧ b.isDigit then some rest else none
  | _ => none

/-- Consume one fixed literal character of the timestamp pattern. -/
def litChar (c : Char) : List Char → Option (List Char)
  | x :: rest => if x = c then some rest else none
  | _ => none

/-- Prefix matcher for the regular expression of app.py line 125,
digit pairs separated by slash, slash, space-hyphen-space and colon
(the `dd/mm/yy - HH:MM` shape).  Returns the unconsumed remainder when the
pattern matches a prefix of the input, mirroring `re.match`, which anchors
at the start of the string only: the pattern has no end anchor. -/
def matchTimestampFrom (cs : List Char) : Option (List Char) :=
  (twoDigits cs).bind fun r1 =>
  (litChar '/' r1).bind fun r2 =>
  (twoDigits r2).bind fun r3 =>
  (litChar '/' r3).bind fun r4 =>
  (twoDigits r4).bind fun r5 =>
  (litChar ' ' r5).bind fun r6 =>
  (litChar '-' r6).bind fun r7 =>
  (litChar ' ' r7).bind fun r8 =>
  (twoDigits r8).bind fun r9 =>
  (litChar ':' r9).bind fun r10 =>
  twoDigits r10

/-- Truthiness of `re.match(pattern, t)` on app.py line 125: the timestamp
pattern matches some prefix of `t`. -/
def timestampFilterKeep (s : String) : Bool :=
  (matchTimestampFrom s.data).isSome

/-- Models Python's `needle in hay` on strings: `needle` occurs as a
contiguous substring of `hay`. -/
def containsSub (needle hay : String) : Bool :=
  (List.range (hay.data.length + 1)).any fun i =>
    List.isPrefixOf needle.data (hay.data.drop i)

/-- Models Python's `str.lower()` for the ASCII strings this program
compares (`Char.toLower` lowercases the ASCII range). -/
def strLower (s : String) : String := ⟨s.data.map Char.toLower⟩

/-! ## Data model (app.py) -/

/-- The `full_time_odds` object of a Match: keys home, draw, away.
A `none` field models the JSON null. -/
structure FullTimeOdds where
  home : Option ℚ
  draw : Option ℚ
  away : Option ℚ
deriving DecidableEq, Repr

/-- The `double_chance` object of a Match.  Source JSON keys are
"1X", "X2" and "12"; those are not valid Lean field names, so they are
spelled `oneX`, `xTwo`, `oneTwo`. -/
structure DoubleChance where
  oneX : Option ℚ
  xTwo : Option ℚ
  oneTwo : Option ℚ
deriving DecidableEq, Repr

/-- The `over_under` object of a Match: keys over, under. -/
structure OverUnder where
  over : Option ℚ
  under : Option ℚ
deriving DecidableEq, Repr

/-- The `btts` object of a Match: keys yes, no. -/
structure Btts where
  yes : Option ℚ
  no : Option ℚ
deriving DecidableEq, Repr

/-- One match record as built by scrape_sportpesa / generate_mock_data.
The source JSON key "match" is a Lean keyword, spelled `label` here. -/
structure Match where
  id : ℕ
  label : String
  teams : String × String
  time : String
  full_time_odds : FullTimeOdds
  double_chance : DoubleChance
  over_under : OverUnder
  btts : Btts
deriving DecidableEq, Repr

/-- The ten per-field text lists that scrape_sportpesa extracts from the
fetched HTML before aligning them (app.py lines 119-148): the team-name
texts, the raw `span.ng-binding` texts, the `div.event-selection` texts that
passed the numeric filter is applied to below, and the seven secondary-market
selection lists obtained through the `get_odds(selector)` helper.  HTML
parsing itself (BeautifulSoup) is outside the model; the alignment logic is
a function of these lists. -/
structure ExtractedInput where
  teams : List String
  raw_times : List String
  full_time_raw : List String
  dc_1x : List String
  dc_x2 : List String
  dc_12 : List String
  ou_over : List String
  ou_under : List String
  btts_yes : List String
  btts_no : List String

/-! ## Extractor / Aligner (app.py lines 119-184) -/

/-- app.py line 120: pair consecutive team names, element 2i with element
2i+1; a trailing unpaired element is dropped (the comprehension runs
`range(0, len(teams) - 1, 2)`). -/
def team_pairs : List String → List (String × String)
  | a :: b :: rest => (a, b) :: team_pairs rest
  | _ => []

/-- app.py line 121: the "A vs B" labels, same pairing as `team_pairs`. -/
def match_labels : List String → List String
  | a :: b :: rest => (a ++ " vs " ++ b) :: match_labels rest
  | _ => []

/-- app.py line 137: chunk a flat list into consecutive groups of three
(`full_time_raw[i:i+3]`); the final group may be shorter. -/
def group3 : List String → List (List String)
  | [] => []
  | [a] => [[a]]
  | [a, b] => [[a, b]]
  | a :: b :: c :: rest => [a, b, c] :: group3 rest

/-- One secondary-market field of the structuring loop (app.py lines
164-174): `float(l[i]) if i < len(l) else None`.  The outer `Option` models
the exception behaviour of the expression (a `float` failure raises out of
the whole loop); the inner `Option` is the field value, `none` for null. -/
def fieldAt (l : List String) (i : ℕ) : Option (Option ℚ) :=
  match l[i]? with
  | none => some none
  | some s => (pyFloat s).map some

/-- One full-time field of the structuring loop (app.py lines 159-161):
`float(grouped[i][k]) if i < len(grouped) and len(grouped[i]) >= k+1
else None`, with the same exception convention as `fieldAt`. -/
def ftFieldAt (grouped : List (List String)) (i k : ℕ) : Option (Option ℚ) :=
  match grouped[i]? with
  | none => some none
  | some g =>
    match g[k]? with
    | none => some none
    | some s => (pyFloat s).map some

/-- One iteration of the structuring loop of app.py lines 152-177: build
the match record at index `i`.  `none` models an exception escaping the
iteration (a failed `float` call or an out-of-range list index). -/
def buildMatch (labels : List String) (pairs : List (String × String))
    (times : List String) (grouped : List (List String))
    (dc1x dcx2 dc12 over under yes no : List String) (i : ℕ) : Option Match := do
  let lab ← labels[i]?
  let pr ← pairs[i]?
  let fh ← ftFieldAt grouped i 0
  let fd ← ftFieldAt grouped i 1
  let fa ← ftFieldAt grouped i 2
  let x1 ← fieldAt dc1x i
  let x2 ← fieldAt dcx2 i
  let x12 ← fieldAt dc12 i
  let ov ← fieldAt over i
  let un ← fieldAt under i
  let ys ← fieldAt yes i
  let nn ← fieldAt no i
  pure { id := i
         label := lab
         teams := pr
         time := times.getD i ""
         full_time_odds := ⟨fh, fd, fa⟩
         double_chance := ⟨x1, x2, x12⟩
         over_under := ⟨ov, un⟩
         btts := ⟨ys, nn⟩ }

/-- Run a fallible body over a list of indices, collecting the results in
order and aborting at the first exception - the semantics of the Python
`for` loop appending to `results`. -/
def optionMapList (f : ℕ → Option Match) : List ℕ → Option (List Match)
  | [] => some []
  | i :: rest =>
    match f i, optionMapList f rest with
    | some m, some ms => some (m :: ms)
    | _, _ => none

/-- The extraction/alignment body of scrape_sportpesa (app.py lines
119-179): filter the timestamps, filter and chunk the full-time odds
tokens, pair the team names, then build
`min(len(matches), len(full_time_grouped), len(match_times))` records.
`none` models an exception escaping the body. -/
def structureResults (inp : ExtractedInput) : Option (List Match) :=
  let labels := match_labels inp.teams
  let pairs := team_pairs inp.teams
  let times := inp.raw_times.filter timestampFilterKeep
  let grouped := group3 (inp.full_time_raw.filter isNumericToken)
  let n := min (min labels.length grouped.length) times.length
  optionMapList
    (buildMatch labels pairs times grouped inp.dc_1x inp.dc_x2 inp.dc_12
      inp.ou_over inp.ou_under inp.btts_yes inp.btts_no)
    (List.range n)

/-- First mock record of generate_mock_data (app.py lines 190-199). -/
def mock0 : Match :=
  { id := 0
    label := "Manchester United vs Liverpool"
    teams := ("Manchester United", "Liverpool")
    time := "22/06/25 - 20:00"
    full_time_odds := ⟨some 2.45, some 3.40, some 2.85⟩
    double_chance := ⟨some 1.45, some 1.50, some 1.30⟩
    over_under := ⟨some 1.85, some 1.95⟩
    btts := ⟨some 1.70, some 2.10⟩ }

/-- Second mock record of generate_mock_data (app.py lines 200-209). -/
def mock1 : Match :=
  { id := 1
    label := "Arsenal vs Chelsea"
    teams := ("Arsenal", "Chelsea")
    time := "23/06/25 - 15:30"
    full_time_odds := ⟨some 2.20, some 3.20, some 3.40⟩
    double_chance := ⟨some 1.35, some 1.65, some 1.40⟩
    over_under := ⟨some 1.90, some 1.90⟩
    btts := ⟨some 1.75, some 2.05⟩ }

/-- Third mock record of generate_mock_data (app.py lines 210-219). -/
def mock2 : Match :=
  { id := 2
    label := "Barcelona vs Real Madrid"
    teams := ("Barcelona", "Real Madrid")
    time := "24/06/25 - 21:00"
    full_time_odds := ⟨some 2.30, some 3.50, some 2.90⟩
    double_chance := ⟨some 1.40, some 1.55, some 1.30⟩
    over_under := ⟨some 1.80, some 2.00⟩
    btts := ⟨some 1.65, some 2.20⟩ }

/-- generate_mock_data (app.py lines 186-220): the fixed 3-entry fallback
dataset. -/
def generate_mock_data : List Match := [mock0, mock1, mock2]

/-- The orchestration of scrape_sportpesa: a fetch failure
(`requests.get` raising, modelled by the `none` input) and any exception
escaping the extraction body both land in the handler that returns the mock
data.  The source's `except` at line 181 has lost its `try:` (a Python
SyntaxError as committed); this definition follows the evidently intended
try/except around the scraping body. -/
def scrape_sportpesa : Option ExtractedInput → List Match
  | none => generate_mock_data
  | some inp =>
    match structureResults inp with
    | none => generate_mock_data
    | some results => results

/-- HTTP outcome of the /api/odds handler: 200 with a dataset, or 500. -/
inductive OddsResponse where
  | ok (data : List Match)
  | serverError (msg : String)
deriving DecidableEq

/-- get_odds (app.py lines 29-36): returns the scrape result as a 200
response; a 500 would require scrape_sportpesa itself to raise, which the
modelled function never does. -/
def get_odds (inp : Option ExtractedInput) : OddsResponse :=
  .ok (scrape_sportpesa inp)

/-- Outcome of the /api/odds/id handler: a match (200) or a 404. -/
inductive LookupResult where
  | found (m : Match)
  | notFound
deriving DecidableEq

/-- get_match_odds (app.py lines 38-57): parse the id as an integer and
index the dataset if in range; on an integer parse failure, return the
first match whose label contains the id case-insensitively; otherwise 404
with the Match-not-found error body. -/
def get_match_odds (odds_data : List Match) (match_id : String) : LookupResult :=
  match pyInt match_id with
  | some k =>
    if h : 0 ≤ k ∧ k.toNat < odds_data.length then
      .found (odds_data.get ⟨k.toNat, h.2⟩)
    else .notFound
  | none =>
    match odds_data.find? (fun m => containsSub (strLower match_id) (strLower m.label)) with
    | some m => .found m
    | none => .notFound

/-! ## Heuristic predictor (ml_predictions.py) -/

/-- The team_strengths dictionary of ml_predictions.py lines 14-36, as an
association list in source order. -/
def team_strengths : List (String × ℚ) :=
  [("Manchester United", 0.85),
   ("Manchester City", 0.9),
   ("Chelsea", 0.85),
   ("Arsenal", 0.82),
   ("Liverpool", 0.87),
   ("Tottenham", 0.8),
   ("Leicester", 0.75),
   ("Wolves", 0.7),
   ("Everton", 0.72),
   ("West Ham", 0.71),
   ("Barcelona", 0.89),
   ("Real Madrid", 0.9),
   ("Atletico Madrid", 0.86),
   ("Sevilla", 0.78),
   ("Valencia", 0.75),
   ("UNKNOWN", 0.5)]

/-- `team_strengths.get(name, team_strengths["UNKNOWN"])` of ml_predictions
lines 51-52: dictionary lookup defaulting to the UNKNOWN sentinel entry. -/
def lookupStrength (name : String) : ℚ :=
  (team_strengths.lookup name).getD ((team_strengths.lookup "UNKNOWN").getD 0)

/-- Lines 55-65: base probabilities - home strength plus the 0.1 home
advantage versus away strength, both divided by their maximum when that
maximum exceeds 1. -/
def basePair (home_team away_team : String) : ℚ × ℚ :=
  let home_strength := lookupStrength home_team
  let away_strength := lookupStrength away_team
  let home_advantage : ℚ := 0.1
  let base_home_prob := home_strength + home_advantage
  let base_away_prob := away_strength
  let max_prob := max base_home_prob base_away_prob
  if max_prob > 1 then (base_home_prob / max_prob, base_away_prob / max_prob)
  else (base_home_prob, base_away_prob)

/-- Line 71: the guard `odds and all(odds.get(k) is not None for k in
["home", "draw", "away"])` - the three odds values when the dict is passed
and every key is present and non-null. -/
def oddsTriple : Option FullTimeOdds → Option (ℚ × ℚ × ℚ)
  | none => none
  | some o =>
    match o.home, o.draw, o.away with
    | some h, some d, some a => some (h, d, a)
    | _, _, _ => none

/-- Lines 71-91: the pre-normalization probabilities.  With usable odds the
reciprocals are normalized and blended 70/30 into the base model; the
divisions raise `ZeroDivisionError` (modelled by `none`) on a zero odds
value or a zero reciprocal total.  Without usable odds the base
probabilities are used unmodified. -/
def rawProbs (home_team away_team : String) (odds : Option FullTimeOdds) :
    Option (ℚ × ℚ × ℚ) :=
  let bp := basePair home_team away_team
  let draw_factor := 1 - |bp.1 - bp.2|
  match oddsTriple odds with
  | none => some (bp.1, draw_factor * 0.5, bp.2)
  | some (h, d, a) =>
    if h = 0 ∨ d = 0 ∨ a = 0 then none
    else
      let odds_home_prob := 1 / h
      let odds_draw_prob := 1 / d
      let odds_away_prob := 1 / a
      let total_odds_prob := odds_home_prob + odds_draw_prob + odds_away_prob
      if total_odds_prob = 0 then none
      else
        some (0.7 * bp.1 + 0.3 * (odds_home_prob / total_odds_prob),
              0.7 * (draw_factor * 0.5) + 0.3 * (odds_draw_prob / total_odds_prob),
              0.7 * bp.2 + 0.3 * (odds_away_prob / total_odds_prob))

/-- Lines 93-97 and 104-108: divide the three values by their sum;
`none` models the `ZeroDivisionError` when the sum is zero. -/
def normalize3 (p : ℚ × ℚ × ℚ) : Option (ℚ × ℚ × ℚ) :=
  let total := p.1 + p.2.1 + p.2.2
  if total = 0 then none
  else some (p.1 / total, p.2.1 / total, p.2.2 / total)

/-- `max(0, min(1, x))` of lines 100-102. -/
def clamp01 (x : ℚ) : ℚ := max 0 (min 1 x)

/-- The step-6 probabilities: raw probabilities divided by their sum
(lines 93-97). -/
def normedProbs (home_team away_team : String) (odds : Option FullTimeOdds) :
    Option (ℚ × ℚ × ℚ) :=
  (rawProbs home_team away_team odds).bind normalize3

/-- Lines 100-108: perturb each probability by its sampled delta, clamp to
the unit interval, and re-normalize.  The deltas stand for the three
`random.uniform(-0.05, 0.05)` samples. -/
def perturbedProbs (home_team away_team : String) (odds : Option FullTimeOdds)
    (d1 d2 d3 : ℚ) : Option (ℚ × ℚ × ℚ) :=
  (normedProbs home_team away_team odds).bind fun q =>
    normalize3 (clamp01 (q.1 + d1), clamp01 (q.2.1 + d2), clamp01 (q.2.2 + d3))

/-- Round half to even at integer precision.  Python's `round` uses
banker's rounding; ties here are exact rational ties. -/
def roundHalfEven (x : ℚ) : ℤ :=
  let f := ⌊x⌋
  let r := x - f
  if r < 1 / 2 then f
  else if 1 / 2 < r then f + 1
  else if f % 2 = 0 then f else f + 1

/-- Python's `round(x, 3)`. -/
def pyRound3 (x : ℚ) : ℚ := (roundHalfEven (x * 1000) : ℚ) / 1000

/-- Python's `round(x, 1)`. -/
def pyRound1 (x : ℚ) : ℚ := (roundHalfEven (x * 10) : ℚ) / 10

/-- Line 117: `max(probabilities, key=probabilities.get)` over the dict
with keys home_win, draw, away_win in insertion order; Python's `max`
keeps the first key attaining the maximum. -/
def mostLikely (ph pd pa : ℚ) : String :=
  if ph ≥ pd ∧ ph ≥ pa then "home_win"
  else if pd ≥ pa then "draw"
  else "away_win"

/-- The prediction dict of ml_predictions lines 111-134.  The
`probabilities` sub-dict is flattened into the three `prob_` fields. -/
structure Prediction where
  most_likely_outcome : String
  outcome_text : String
  confidence : ℚ
  prob_home : ℚ
  prob_draw : ℚ
  prob_away : ℚ
deriving DecidableEq, Repr

/-- predict_match_outcome (ml_predictions.py lines 38-136), with the two
`random.uniform(-0.05, 0.05)` perturbation samples made explicit as the
`d1 d2 d3` parameters.  `none` models the call raising
`ZeroDivisionError`. -/
def predict_match_outcome (home_team away_team : String)
    (odds : Option FullTimeOdds) (d1 d2 d3 : ℚ) : Option Prediction :=
  (perturbedProbs home_team away_team odds d1 d2 d3).map fun r =>
    let ph := pyRound3 r.1
    let pd := pyRound3 r.2.1
    let pa := pyRound3 r.2.2
    let ml := mostLikely ph pd pa
    let conf := if ml = "home_win" then ph else if ml = "draw" then pd else pa
    { most_likely_outcome := ml
      outcome_text :=
        if ml = "home_win" then home_team ++ " Win"
        else if ml = "draw" then "Draw"
        else away_team ++ " Win"
      confidence := pyRound1 (conf * 100)
      prob_home := ph
      prob_draw := pd
      prob_away := pa }

/-! ## Helper lemmas -/

theorem team_pairs_length : ∀ l : List String, (team_pairs l).length = l.length / 2
  | [] => by simp [team_pairs]
  | [_] => by simp [team_pairs]
  | _ :: _ :: rest => by
    simp only [team_pairs, List.length_cons, team_pairs_length rest]
    omega

theorem match_labels_length : ∀ l : List String, (match_labels l).length = l.length / 2
  | [] => by simp [match_labels]
  | [_] => by simp [match_labels]
  | _ :: _ :: rest => by
    simp only [match_labels, List.length_cons, match_labels_length rest]
    omega

theorem team_pairs_getElem : ∀ (l : List String) (i : ℕ),
    (team_pairs l)[i]? = (l[2 * i]?).bind fun a => (l[2 * i + 1]?).map fun b => (a, b)
  | [], i => by simp [team_pairs]
  | [a], i => by
    cases i <;> simp [team_pairs]
  | a :: b :: rest, 0 => by simp [team_pairs]
  | a :: b :: rest, i + 1 => by
    have e1 : 2 * (i + 1) = 2 * i + 1 + 1 := by ring
    rw [e1]
    simp only [team_pairs, List.getElem?_cons_succ]
    exact team_pairs_getElem rest i

theorem optionMapList_eq_some (f : ℕ → Option Match) :
    ∀ (ns : List ℕ) (l : List Match), optionMapList f ns = some l →
      l.length = ns.length ∧
      ∀ i (hn : i < ns.length) (hl : i < l.length),
        f (ns.get ⟨i, hn⟩) = some (l.get ⟨i, hl⟩)
  | [], l, h => by
    simp only [optionMapList, Option.some.injEq] at h
    subst h
    exact ⟨rfl, fun i hn => absurd hn (Nat.not_lt_zero i)⟩
  | n :: rest, l, h => by
    simp only [optionMapList] at h
    cases hf : f n with
    | none => rw [hf] at h; exact absurd h (by simp)
    | some m =>
      rw [hf] at h
      cases hr : optionMapList f rest with
      | none => rw [hr] at h; exact absurd h (by simp)
      | some ms =>
        rw [hr] at h
        simp only [Option.some.injEq] at h
        subst h
        obtain ⟨hlen, hget⟩ := optionMapList_eq_some f rest ms hr
        refine ⟨by simp [hlen], ?_⟩
        intro i hn hl
        cases i with
        | zero => simpa using hf
        | succ j =>
          simp only [List.get_cons_succ]
          exact hget j (by simpa using hn) (by simpa using hl)

theorem optionMapList_isSome (f : ℕ → Option Match) :
    ∀ ns : List ℕ, (∀ i ∈ ns, (f i).isSome) → (optionMapList f ns).isSome
  | [], _ => by simp [optionMapList]
  | n :: rest, h => by
    have h1 : (f n).isSome := h n (List.mem_cons_self n rest)
    have h2 : (optionMapList f rest).isSome :=
      optionMapList_isSome f rest (fun i hi => h i (List.mem_cons_of_mem n hi))
    obtain ⟨m, hm⟩ := Option.isSome_iff_exists.mp h1
    obtain ⟨ms, hms⟩ := Option.isSome_iff_exists.mp h2
    simp [optionMapList, hm, hms]

theorem roundHalfEven_abs (x : ℚ) : |(roundHalfEven x : ℚ) - x| ≤ 1 / 2 := by
  have h0 : (⌊x⌋ : ℚ) ≤ x := Int.floor_le x
  have h1 : x < ⌊x⌋ + 1 := Int.lt_floor_add_one x
  simp only [roundHalfEven]
  split_ifs with hlt hgt hev
  · rw [abs_sub_comm, abs_of_nonneg (by linarith)]
    linarith
  · push_cast
    rw [abs_of_nonneg (by linarith)]
    linarith
  · have heq : x - ⌊x⌋ = 1 / 2 := le_antisymm (not_lt.mp hgt) (not_lt.mp hlt)
    rw [abs_sub_comm, abs_of_nonneg (by linarith)]
    linarith
  · have heq : x - ⌊x⌋ = 1 / 2 := le_antisymm (not_lt.mp hgt) (not_lt.mp hlt)
    push_cast
    rw [abs_of_nonneg (by linarith)]
    linarith

theorem normalize3_sum {p q : ℚ × ℚ × ℚ} (h : normalize3 p = some q) :
    q.1 + q.2.1 + q.2.2 = 1 := by
  simp only [normalize3] at h
  split_ifs at h with ht
  simp only [Option.some.injEq] at h
  subst h
  rw [div_add_div_same, div_add_div_same, div_self ht]

theorem normalize3_isSome {p : ℚ × ℚ × ℚ} (h : p.1 + p.2.1 + p.2.2 ≠ 0) :
    (normalize3 p).isSome := by
  simp only [normalize3]
  simp [h]

theorem normalize3_mem_unit {p q : ℚ × ℚ × ℚ} (h : normalize3 p = some q)
    (h1 : 0 ≤ p.1) (h2 : 0 ≤ p.2.1) (h3 : 0 ≤ p.2.2) :
    (0 ≤ q.1 ∧ q.1 ≤ 1) ∧ (0 ≤ q.2.1 ∧ q.2.1 ≤ 1) ∧ (0 ≤ q.2.2 ∧ q.2.2 ≤ 1) := by
  simp only [normalize3] at h
  split_ifs at h with ht
  simp only [Option.some.injEq] at h
  subst h
  have hpos : 0 < p.1 + p.2.1 + p.2.2 :=
    lt_of_le_of_ne (by linarith) (Ne.symm ht)
  refine ⟨⟨?_, ?_⟩, ⟨?_, ?_⟩, ⟨?_, ?_⟩⟩ <;>
    first
      | exact div_nonneg (by linarith) (le_of_lt hpos)
      | exact (div_le_one hpos).mpr (by linarith)

theorem round3_sum_near_one {a b c : ℚ} (h : a + b + c = 1) :
    |pyRound3 a + pyRound3 b + pyRound3 c - 1| ≤ 1 / 1000 := by
  have ha := roundHalfEven_abs (a * 1000)
  have hb := roundHalfEven_abs (b * 1000)
  have hc := roundHalfEven_abs (c * 1000)
  set na := roundHalfEven (a * 1000)
  set nb := roundHalfEven (b * 1000)
  set nc := roundHalfEven (c * 1000)
  have hsum : |(na + nb + nc : ℚ) - 1000| ≤ 3 / 2 := by
    have : (na + nb + nc : ℚ) - 1000 =
        ((na : ℚ) - a * 1000) + ((nb : ℚ) - b * 1000) + ((nc : ℚ) - c * 1000) := by
      linarith [h]
    rw [this]
    calc |((na : ℚ) - a * 1000) + ((nb : ℚ) - b * 1000) + ((nc : ℚ) - c * 1000)|
        ≤ |((na : ℚ) - a * 1000) + ((nb : ℚ) - b * 1000)| + |(nc : ℚ) - c * 1000| :=
          abs_add _ _
      _ ≤ |(na : ℚ) - a * 1000| + |(nb : ℚ) - b * 1000| + |(nc : ℚ) - c * 1000| := by
          have := abs_add ((na : ℚ) - a * 1000) ((nb : ℚ) - b * 1000)
          linarith
      _ ≤ 3 / 2 := by linarith
  have hN : |na + nb + nc - 1000| ≤ 1 := by
    have h2 : |((na + nb + nc - 1000 : ℤ) : ℚ)| < 2 := by
      push_cast
      calc |(na + nb + nc : ℚ) - 1000| ≤ 3 / 2 := hsum
        _ < 2 := by norm_num
    rw [← Int.cast_abs] at h2
    have h3 : |na + nb + nc - 1000| < 2 := by exact_mod_cast h2
    omega
  have hexp : pyRound3 a + pyRound3 b + pyRound3 c - 1 =
      ((na + nb + nc - 1000 : ℤ) : ℚ) / 1000 := by
    simp only [pyRound3]
    push_cast
    ring
  rw [hexp, abs_div, abs_of_pos (by norm_num : (0 : ℚ) < 1000)]
  rw [div_le_div_iff₀ (by norm_num) (by norm_num)]
  rw [← Int.cast_abs]
  have : ((|na + nb + nc - 1000| : ℤ) : ℚ) ≤ 1 := by exact_mod_cast hN
  linarith

theorem splitAtDot_removeFirstDot : ∀ cs : List Char,
    removeFirstDot cs = (splitAtDot cs).1 ++ ((splitAtDot cs).2.getD [])
  | [] => rfl
  | c :: rest => by
    by_cases hc : c = '.'
    · simp [removeFirstDot, splitAtDot, hc]
    · simp only [removeFirstDot, splitAtDot, if_neg hc]
      simpa using splitAtDot_removeFirstDot rest

theorem pyFloatBody_isSome {cs : List Char}
    (hne : removeFirstDot cs ≠ [])
    (hdig : (removeFirstDot cs).all Char.isDigit = true) :
    (pyFloatBody cs).isSome := by
  have hsplit := splitAtDot_removeFirstDot cs
  unfold pyFloatBody
  cases hsd : splitAtDot cs with
  | mk ip od =>
    cases od with
    | none =>
      rw [hsd] at hsplit
      simp only [Option.getD_none, List.append_nil] at hsplit
      rw [hsplit] at hne hdig
      simp [hne, hdig]
    | some fp =>
      rw [hsd] at hsplit
      simp only [Option.getD_some] at hsplit
      rw [hsplit] at hne hdig
      simp [hne, hdig]

theorem isNumericToken_pyFloat {s : String} (h : isNumericToken s = true) :
    (pyFloat s).isSome := by
  simp only [isNumericToken, Bool.and_eq_true, ne_eq, decide_eq_true_eq] at h
  obtain ⟨hne, hdig⟩ := h
  cases hcs : s.data with
  | nil => rw [hcs] at hne; exact (hne rfl).elim
  | cons c rest =>
    rw [hcs] at hne hdig
    have hdash : ('-' : Char).isDigit = false := by decide
    have hplusd : ('+' : Char).isDigit = false := by decide
    by_cases hminus : c = '-'
    · subst hminus
      simp only [removeFirstDot, if_neg (by decide : ¬ ('-' : Char) = '.')] at hdig
      simp [List.all_cons, hdash] at hdig
    · by_cases hplus : c = '+'
      · subst hplus
        simp only [removeFirstDot, if_neg (by decide : ¬ ('+' : Char) = '.')] at hdig
        simp [List.all_cons, hplusd] at hdig
      · have hpf : pyFloat s = pyFloatBody (c :: rest) := by
          simp only [pyFloat, hcs, if_neg hminus, if_neg hplus]
        rw [hpf]
        exact pyFloatBody_isSome hne hdig

theorem group3_mem_mem : ∀ (l : List String) (g : List String), g ∈ group3 l →
    ∀ s ∈ g, s ∈ l
  | [], g, hg => by simp [group3] at hg
  | [a], g, hg => by
    simp only [group3, List.mem_singleton] at hg
    subst hg
    intro s hs
    simpa using hs
  | [a, b], g, hg => by
    simp only [group3, List.mem_singleton] at hg
    subst hg
    intro s hs
    simpa using hs
  | a :: b :: c :: rest, g, hg => by
    simp only [group3, List.mem_cons] at hg
    intro s hs
    rcases hg with hg | hg
    · subst hg
      rcases List.mem_cons.mp hs with h | h
      · simp [h]
      · rcases List.mem_cons.mp h with h | h
        · simp [h]
        · rcases List.mem_cons.mp h with h | h
          · simp [h]
          · simp at h
    · have := group3_mem_mem rest g hg s hs
      simp [this]

theorem fieldAt_isSome {l : List String} {i : ℕ}
    (h : ∀ s, l[i]? = some s → (pyFloat s).isSome) : (fieldAt l i).isSome := by
  cases hl : l[i]? with
  | none => simp [fieldAt, hl]
  | some s =>
    obtain ⟨q, hq⟩ := Option.isSome_iff_exists.mp (h s hl)
    simp [fieldAt, hl, hq]

theorem fieldAt_spec {l : List String} {i : ℕ} {v : Option ℚ}
    (h : fieldAt l i = some v) :
    (v = none ↔ l.length ≤ i) ∧ ∀ s, l[i]? = some s → v = pyFloat s := by
  cases hl : l[i]? with
  | none =>
    simp only [fieldAt, hl, Option.some.injEq] at h
    subst h
    refine ⟨⟨fun _ => ?_, fun _ => rfl⟩, fun s hs => absurd hs (by simp)⟩
    by_contra hlt
    rw [List.getElem?_eq_getElem (lt_of_not_le hlt)] at hl
    cases hl
  | some s =>
    simp only [fieldAt, hl] at h
    cases hq : pyFloat s with
    | none => rw [hq] at h; cases h
    | some q =>
      rw [hq] at h
      simp only [Option.map_some', Option.some.injEq] at h
      subst h
      have hlen : i < l.length := by
        by_contra hle
        rw [List.getElem?_eq_none (le_of_not_lt hle)] at hl
        cases hl
      refine ⟨⟨(fun hcon => nomatch hcon), (fun hle => absurd hlen (not_lt.mpr hle))⟩, ?_⟩
      intro t ht
      cases ht
      rw [hq]

theorem ftFieldAt_isSome {grouped : List (List String)} {i k : ℕ}
    (h : ∀ g, grouped[i]? = some g → ∀ s, g[k]? = some s → (pyFloat s).isSome) :
    (ftFieldAt grouped i k).isSome := by
  cases hg : grouped[i]? with
  | none => simp [ftFieldAt, hg]
  | some g =>
    cases hs : g[k]? with
    | none => simp [ftFieldAt, hg, hs]
    | some s =>
      obtain ⟨q, hq⟩ := Option.isSome_iff_exists.mp (h g hg s hs)
      simp [ftFieldAt, hg, hs, hq]

theorem buildMatch_isSome {labels : List String} {pairs : List (String × String)}
    {times : List String} {grouped : List (List String)}
    {dc1x dcx2 dc12 over under yes no : List String} {i : ℕ}
    (h1 : (labels[i]?).isSome) (h2 : (pairs[i]?).isSome)
    (h3 : (ftFieldAt grouped i 0).isSome) (h4 : (ftFieldAt grouped i 1).isSome)
    (h5 : (ftFieldAt grouped i 2).isSome)
    (h6 : (fieldAt dc1x i).isSome) (h7 : (fieldAt dcx2 i).isSome)
    (h8 : (fieldAt dc12 i).isSome) (h9 : (fieldAt over i).isSome)
    (h10 : (fieldAt under i).isSome) (h11 : (fieldAt yes i).isSome)
    (h12 : (fieldAt no i).isSome) :
    (buildMatch labels pairs times grouped dc1x dcx2 dc12 over under yes no i).isSome := by
  obtain ⟨lab, hlab⟩ := Option.isSome_iff_exists.mp h1
  obtain ⟨pr, hpr⟩ := Option.isSome_iff_exists.mp h2
  obtain ⟨fh, hfh⟩ := Option.isSome_iff_exists.mp h3
  obtain ⟨fd, hfd⟩ := Option.isSome_iff_exists.mp h4
  obtain ⟨fa, hfa⟩ := Option.isSome_iff_exists.mp h5
  obtain ⟨x1, hx1⟩ := Option.isSome_iff_exists.mp h6
  obtain ⟨x2, hx2⟩ := Option.isSome_iff_exists.mp h7
  obtain ⟨x12, hx12⟩ := Option.isSome_iff_exists.mp h8
  obtain ⟨ov, hov⟩ := Option.isSome_iff_exists.mp h9
  obtain ⟨un, hun⟩ := Option.isSome_iff_exists.mp h10
  obtain ⟨ys, hys⟩ := Option.isSome_iff_exists.mp h11
  obtain ⟨nn, hnn⟩ := Option.isSome_iff_exists.mp h12
  simp [buildMatch, hlab, hpr, hfh, hfd, hfa, hx1, hx2, hx12, hov, hun, hys, hnn]

theorem buildMatch_eq_some {labels : List String} {pairs : List (String × String)}
    {times : List String} {grouped : List (List String)}
    {dc1x dcx2 dc12 over under yes no : List String} {i : ℕ} {m : Match}
    (h : buildMatch labels pairs times grouped dc1x dcx2 dc12 over under yes no i = some m) :
    m.id = i ∧
    (∃ lab, labels[i]? = some lab ∧ m.label = lab) ∧
    fieldAt dc1x i = some m.double_chance.oneX ∧
    fieldAt dcx2 i = some m.double_chance.xTwo ∧
    fieldAt dc12 i = some m.double_chance.oneTwo ∧
    fieldAt over i = some m.over_under.over ∧
    fieldAt under i = some m.over_under.under ∧
    fieldAt yes i = some m.btts.yes ∧
    fieldAt no i = some m.btts.no := by
  simp only [buildMatch, bind, Option.bind_eq_some, Option.pure_def,
    Option.some.injEq] at h
  obtain ⟨lab, hlab, pr, hpr, fh, hfh, fd, hfd, fa, hfa, x1, hx1, x2, hx2,
    x12, hx12, ov, hov, un, hun, ys, hys, nn, hnn, hm⟩ := h
  subst hm
  exact ⟨rfl, ⟨lab, hlab, rfl⟩, hx1, hx2, hx12, hov, hun, hys, hnn⟩

theorem twoDigits_eq_some {cs r : List Char} :
    twoDigits cs = some r ↔
      ∃ a b, cs = a :: b :: r ∧ a.isDigit = true ∧ b.isDigit = true := by
  constructor
  · intro h
    match cs with
    | [] => cases h
    | [a] => cases h
    | a :: b :: rest =>
      simp only [twoDigits] at h
      split_ifs at h with hd
      simp only [Option.some.injEq] at h
      subst h
      exact ⟨a, b, rfl, hd.1, hd.2⟩
  · rintro ⟨a, b, rfl, h1, h2⟩
    simp [twoDigits, h1, h2]

theorem litChar_eq_some {c : Char} {cs r : List Char} :
    litChar c cs = some r ↔ cs = c :: r := by
  constructor
  · intro h
    match cs with
    | [] => cases h
    | x :: rest =>
      simp only [litChar] at h
      split_ifs at h with hx
      simp only [Option.some.injEq] at h
      subst h
      rw [hx]
  · rintro rfl
    simp [litChar]

theorem find_first {p : Match → Bool} :
    ∀ (l : List Match) (m : Match), l.find? p = some m →
      ∃ i, ∃ hi : i < l.length, l.get ⟨i, hi⟩ = m ∧ p m = true ∧
        ∀ j (hj : j < i), p (l.get ⟨j, Nat.lt_trans hj hi⟩) = false
  | [], m, h => by cases h
  | a :: rest, m, h => by
    cases hp : p a with
    | true =>
      rw [List.find?_cons_of_pos _ hp] at h
      simp only [Option.some.injEq] at h
      subst h
      exact ⟨0, Nat.succ_pos _, rfl, hp, fun j hj => absurd hj (Nat.not_lt_zero j)⟩
    | false =>
      rw [List.find?_cons_of_neg _ (by simp [hp])] at h
      obtain ⟨i, hi, hget, hpm, hfirst⟩ := find_first rest m h
      refine ⟨i + 1, Nat.succ_lt_succ hi, hget, hpm, ?_⟩
      intro j hj
      cases j with
      | zero => simpa using hp
      | succ j' => exact hfirst j' (Nat.lt_of_succ_lt_succ hj)

theorem lookup_getD_pos :
    ∀ (l : List (String × ℚ)), (∀ p ∈ l, 0 < p.2) →
      ∀ (k : String) (d : ℚ), 0 < d → 0 < (l.lookup k).getD d
  | [], _, k, d, hd => hd
  | (a, b) :: rest, h, k, d, hd => by
    cases hk : (k == a) with
    | true =>
      simp only [List.lookup, hk, Option.getD_some]
      simpa using h (a, b) (List.mem_cons_self _ _)
    | false =>
      simp only [List.lookup, hk]
      exact lookup_getD_pos rest
        (fun p hp => h p (List.mem_cons_of_mem _ hp)) k d hd

theorem lookupStrength_pos (name : String) : 0 < lookupStrength name := by
  unfold lookupStrength
  apply lookup_getD_pos
  · intro p hp
    simp only [team_strengths, List.mem_cons] at hp
    rcases hp with h | h | h | h | h | h | h | h | h | h | h | h | h | h | h | h | h <;>
      first
        | (subst h; norm_num)
        | exact absurd h (List.not_mem_nil p)
  · have h : team_strengths.lookup "UNKNOWN" = some 0.5 := by rfl
    rw [h]
    norm_num

theorem basePair_bounds (home_team away_team : String) :
    0 < (basePair home_team away_team).1 ∧ (basePair home_team away_team).1 ≤ 1 ∧
    0 < (basePair home_team away_team).2 ∧ (basePair home_team away_team).2 ≤ 1 := by
  have hh := lookupStrength_pos home_team
  have ha := lookupStrength_pos away_team
  simp only [basePair]
  set s1 := lookupStrength home_team
  set s2 := lookupStrength away_team
  split_ifs with hmax
  · have hmaxpos : (0 : ℚ) < max (s1 + 0.1) s2 := by positivity
    refine ⟨div_pos (by linarith) hmaxpos, ?_, div_pos ha hmaxpos, ?_⟩
    · exact (div_le_one hmaxpos).mpr (le_max_left _ _)
    · exact (div_le_one hmaxpos).mpr (le_max_right _ _)
  · push_neg at hmax
    refine ⟨by linarith, ?_, ha, ?_⟩
    · exact le_trans (le_max_left (s1 + 0.1) s2) hmax
    · exact le_trans (le_max_right (s1 + 0.1) s2) hmax

theorem matchTimestampFrom_isSome_iff (cs : List Char) :
    (matchTimestampFrom cs).isSome = true ↔
      ∃ d1 d2 d3 d4 d5 d6 d7 d8 d9 d10 rest,
        cs = [d1, d2, '/', d3, d4, '/', d5, d6, ' ', '-', ' ',
              d7, d8, ':', d9, d10] ++ rest ∧
        d1.isDigit = true ∧ d2.isDigit = true ∧ d3.isDigit = true ∧
        d4.isDigit = true ∧ d5.isDigit = true ∧ d6.isDigit = true ∧
        d7.isDigit = true ∧ d8.isDigit = true ∧ d9.isDigit = true ∧
        d10.isDigit = true := by
  constructor
  · intro h
    obtain ⟨r, hr⟩ := Option.isSome_iff_exists.mp h
    simp only [matchTimestampFrom, Option.bind_eq_some] at hr
    obtain ⟨r1, h1, r2, h2, r3, h3, r4, h4, r5, h5, r6, h6, r7, h7, r8, h8,
      r9, h9, r10, h10, h11⟩ := hr
    obtain ⟨d1, d2, hcs, hd1, hd2⟩ := twoDigits_eq_some.mp h1
    have e2 := litChar_eq_some.mp h2
    obtain ⟨d3, d4, e3, hd3, hd4⟩ := twoDigits_eq_some.mp h3
    have e4 := litChar_eq_some.mp h4
    obtain ⟨d5, d6, e5, hd5, hd6⟩ := twoDigits_eq_some.mp h5
    have e6 := litChar_eq_some.mp h6
    have e7 := litChar_eq_some.mp h7
    have e8 := litChar_eq_some.mp h8
    obtain ⟨d7, d8, e9, hd7, hd8⟩ := twoDigits_eq_some.mp h9
    have e10 := litChar_eq_some.mp h10
    obtain ⟨d9, d10, e11, hd9, hd10⟩ := twoDigits_eq_some.mp h11
    subst hcs e2 e3 e4 e5 e6 e7 e8 e9 e10 e11
    exact ⟨d1, d2, d3, d4, d5, d6, d7, d8, d9, d10, r,
      rfl, hd1, hd2, hd3, hd4, hd5, hd6, hd7, hd8, hd9, hd10⟩
  · rintro ⟨d1, d2, d3, d4, d5, d6, d7, d8, d9, d10, rest, rfl,
      hd1, hd2, hd3, hd4, hd5, hd6, hd7, hd8, hd9, hd10⟩
    simp [matchTimestampFrom, twoDigits, litChar,
      hd1, hd2, hd3, hd4, hd5, hd6, hd7, hd8, hd9, hd10]

/-- The anchored (both-ends) reading of the timestamp pattern asserted by
the claim under study: the pattern consumes the entire string, with nothing
before or after the `dd/mm/yy - HH:MM` shape. -/
def timestampExactMatch (s : String) : Bool :=
  match matchTimestampFrom s.data with
  | some [] => true
  | _ => false

theorem structureResults_id {inp : ExtractedInput} {results : List Match}
    (h : structureResults inp = some results) :
    ∀ (i : ℕ) (m : Match), results[i]? = some m → m.id = i := by
  intro i m hm
  simp only [structureResults] at h
  obtain ⟨hlen, hget⟩ := optionMapList_eq_some _ _ _ h
  obtain ⟨hi, hgm⟩ := List.getElem?_eq_some.mp hm
  have hn : i < (List.range (min (min (match_labels inp.teams).length
      (group3 (List.filter isNumericToken inp.full_time_raw)).length)
      (List.filter timestampFilterKeep inp.raw_times).length)).length := by
    rw [← hlen]; exact hi
  have hb := hget i hn hi
  simp only [List.get_eq_getElem, List.getElem_range] at hb
  rw [hgm] at hb
  exact (buildMatch_eq_some hb).1

theorem mock_id : ∀ (i : ℕ) (m : Match), generate_mock_data[i]? = some m → m.id = i := by
  intro i m h
  rcases i with _ | _ | _ | i
  · simp only [generate_mock_data, List.getElem?_cons_zero, Option.some.injEq] at h
    rw [← h]; rfl
  · simp only [generate_mock_data, List.getElem?_cons_succ,
      List.getElem?_cons_zero, Option.some.injEq] at h
    rw [← h]; rfl
  · simp only [generate_mock_data, List.getElem?_cons_succ,
      List.getElem?_cons_zero, Option.some.injEq] at h
    rw [← h]; rfl
  · simp [generate_mock_data] at h

theorem scrape_id : ∀ (oinp : Option ExtractedInput) (i : ℕ) (m : Match),
    (scrape_sportpesa oinp)[i]? = some m → m.id = i := by
  intro oinp i m h
  cases oinp with
  | none => exact mock_id i m h
  | some inp =>
    cases hs : structureResults inp with
    | none =>
      rw [show scrape_sportpesa (some inp) = generate_mock_data by
        simp [scrape_sportpesa, hs]] at h
      exact mock_id i m h
    | some results =>
      rw [show scrape_sportpesa (some inp) = results by
        simp [scrape_sportpesa, hs]] at h
      exact structureResults_id hs i m h

/-! ## Claim theorems -/

/-- C2 counterexample: the claim says a candidate passes the timestamp
filter iff it matches the fully anchored pattern, with nothing before or
after.  The code's `re.match` anchors only at the start: the string
"01/02/03 - 04:05x" is kept by the filter although it does not match the
anchored pattern (it has a trailing character). -/
theorem c2_counterexample :
    List.filter timestampFilterKeep ["01/02/03 - 04:05x"] = ["01/02/03 - 04:05x"] ∧
    timestampExactMatch "01/02/03 - 04:05x" = false := by
  exact ⟨rfl, rfl⟩

/-- C2 (amended): a candidate timestamp string is kept by the filter iff
the pattern two digits, slash, two digits, slash, two digits,
space-hyphen-space, two digits, colon, two digits matches a PREFIX of the
string (anchored at the start only, arbitrary trailing text allowed),
mirroring `re.match` with no end anchor. -/
theorem c2_timestamp_filter (ts : List String) (s : String) :
    s ∈ List.filter timestampFilterKeep ts ↔
      s ∈ ts ∧
      ∃ d1 d2 d3 d4 d5 d6 d7 d8 d9 d10 rest,
        s.data = [d1, d2, '/', d3, d4, '/', d5, d6, ' ', '-', ' ',
                  d7, d8, ':', d9, d10] ++ rest ∧
        d1.isDigit = true ∧ d2.isDigit = true ∧ d3.isDigit = true ∧
        d4.isDigit = true ∧ d5.isDigit = true ∧ d6.isDigit = true ∧
        d7.isDigit = true ∧ d8.isDigit = true ∧ d9.isDigit = true ∧
        d10.isDigit = true := by
  rw [List.mem_filter]
  exact and_congr_right fun _ =>
    (by rw [timestampFilterKeep]; exact matchTimestampFrom_isSome_iff s.data)

/-- C8: team-name pairing - the aligner produces `len / 2` pairs (so `k`
pairs from `2k` or `2k+1` extracted elements, the odd trailing element
dropped), and pair `i` is (element `2i`, element `2i+1`). -/
theorem c8_team_pairs (l : List String) :
    (team_pairs l).length = l.length / 2 ∧
    ∀ i : ℕ, (team_pairs l)[i]? =
      (l[2 * i]?).bind fun a => (l[2 * i + 1]?).map fun b => (a, b) := by
  exact ⟨team_pairs_length l, fun i => team_pairs_getElem l i⟩

/-- C9: in every dataset the service can return - a successful extraction
as well as the mock fallback - the match stored at position `i` has
`id = i`, and hence two distinct positions never hold the same record. -/
theorem c9_ids (oinp : Option ExtractedInput) (i j : ℕ) (m m' : Match)
    (hm : (scrape_sportpesa oinp)[i]? = some m)
    (hm' : (scrape_sportpesa oinp)[j]? = some m') :
    m.id = i ∧ (i ≠ j → m ≠ m') := by
  refine ⟨scrape_id oinp i m hm, fun hne heq => hne ?_⟩
  have h1 := scrape_id oinp i m hm
  have h2 := scrape_id oinp j m' hm'
  rw [← h1, ← h2, heq]

/-- C9 witness: the theorem applied to the mock dataset (the fetch-failure
response) at positions 0 and 1. -/
theorem c9_ids_witness :
    mock0.id = 0 ∧ ((0 : ℕ) ≠ 1 → mock0 ≠ mock1) :=
  c9_ids none 0 1 mock0 mock1 rfl rfl

/-- C7: the intended behaviour at the modelled fallback path - a fetch
failure still produces a 200 response carrying the fixed 3-entry mock
dataset.  (As committed the module cannot serve any request at all: the
`except` at app.py line 181 has no matching `try:`, a Python SyntaxError;
this theorem evaluates the evidently intended handler.) -/
theorem c7_intended_fallback :
    get_odds none = .ok generate_mock_data ∧
    scrape_sportpesa none = generate_mock_data ∧
    generate_mock_data.length = 3 :=
  ⟨rfl, rfl, rfl⟩

/-- Extraction input whose team-name selector matched nothing (zero team
elements) while timestamps and full-time odds are present. -/
def emptyTeamsInput : ExtractedInput :=
  ⟨[], ["01/02/03 - 04:05"], ["1.5", "2.5", "3.5"], [], [], [], [], [], [], []⟩

/-- C3 counterexample: the claim says that when team-name extraction finds
zero matches the extractor signals an error and the caller returns the
3-entry mock dataset, never an empty result.  The code has no zero-match
check: with zero team elements the loop bound `n` is 0, the extraction
succeeds with an empty list, and the response is empty - not the mock
dataset. -/
theorem c3_counterexample :
    structureResults emptyTeamsInput = some [] ∧
    scrape_sportpesa (some emptyTeamsInput) = [] ∧
    scrape_sportpesa (some emptyTeamsInput) ≠ generate_mock_data := by
  refine ⟨rfl, rfl, ?_⟩
  intro h
  have h2 : ([] : List Match) = generate_mock_data := h
  simp [generate_mock_data] at h2

/-- Extraction input on which the structuring loop raises: the first
double-chance entry "junk" is not float-parseable, so `float` raises
`ValueError` out of the loop. -/
def junkOddsInput : ExtractedInput :=
  ⟨["A", "B"], ["01/02/03 - 04:05"], ["1.5", "2.5", "3.5"],
   ["junk"], [], [], [], [], [], []⟩

/-- C3 (amended): any exception escaping the extraction body is downgraded
to the fixed 3-entry mock fallback and never surfaces in the HTTP response
(the odds endpoint always answers 200 with a dataset); but when team-name
extraction finds zero matches, the extraction succeeds with the empty
dataset - the mock fallback is NOT used in that case. -/
theorem c3_fallback :
    (∀ inp : ExtractedInput, structureResults inp = none →
      scrape_sportpesa (some inp) = generate_mock_data) ∧
    (∀ inp : ExtractedInput, inp.teams = [] →
      scrape_sportpesa (some inp) = []) ∧
    (∀ oinp : Option ExtractedInput, get_odds oinp = .ok (scrape_sportpesa oinp)) ∧
    generate_mock_data.length = 3 := by
  refine ⟨?_, ?_, fun _ => rfl, rfl⟩
  · intro inp h
    simp [scrape_sportpesa, h]
  · intro inp h
    have hs : structureResults inp = some [] := by
      simp [structureResults, h, match_labels, optionMapList]
    simp [scrape_sportpesa, hs]

/-- C3 witness: the amended theorem applied to the concrete raising input
(mock fallback) and to the concrete zero-team input (empty response). -/
theorem c3_fallback_witness :
    scrape_sportpesa (some junkOddsInput) = generate_mock_data ∧
    scrape_sportpesa (some emptyTeamsInput) = [] :=
  ⟨c3_fallback.1 junkOddsInput rfl, c3_fallback.2.1 emptyTeamsInput rfl⟩

/-- C6: lookup of a single match.  The path parameter is first parsed as an
integer: in range, the match at that zero-based index is returned, out of
range is a 404.  When the integer parse fails, the first match whose label
contains the parameter case-insensitively is returned, and a 404 results
when no label matches.  On the mock dataset: id "0" returns the Manchester
United vs Liverpool record with home odds 2.45, "arsenal" returns the
Arsenal vs Chelsea record, "nonexistent" is a 404. -/
theorem c6_match_lookup :
    (∀ (data : List Match) (s : String) (k : ℤ), pyInt s = some k →
      0 ≤ k → ∀ (hlt : k.toNat < data.length),
        get_match_odds data s = .found (data.get ⟨k.toNat, hlt⟩)) ∧
    (∀ (data : List Match) (s : String) (k : ℤ), pyInt s = some k →
      (k < 0 ∨ data.length ≤ k.toNat) → get_match_odds data s = .notFound) ∧
    (∀ (data : List Match) (s : String) (m : Match), pyInt s = none →
      get_match_odds data s = .found m →
      ∃ i, ∃ hi : i < data.length, data.get ⟨i, hi⟩ = m ∧
        containsSub (strLower s) (strLower m.label) = true ∧
        ∀ j (hj : j < i),
          containsSub (strLower s) (strLower (data.get ⟨j, Nat.lt_trans hj hi⟩).label) = false) ∧
    (∀ (data : List Match) (s : String), pyInt s = none →
      (∀ m ∈ data, containsSub (strLower s) (strLower m.label) = false) →
      get_match_odds data s = .notFound) ∧
    (get_match_odds generate_mock_data "0" = .found mock0 ∧
      mock0.label = "Manchester United vs Liverpool" ∧
      mock0.full_time_odds.home = some 2.45) ∧
    (get_match_odds generate_mock_data "arsenal" = .found mock1 ∧
      mock1.label = "Arsenal vs Chelsea") ∧
    get_match_odds generate_mock_data "nonexistent" = .notFound := by
  refine ⟨?_, ?_, ?_, ?_, ⟨rfl, rfl, rfl⟩, ⟨rfl, rfl⟩, rfl⟩
  · intro data s k hk h0 hlt
    simp only [get_match_odds, hk]
    rw [dif_pos ⟨h0, hlt⟩]
  · intro data s k hk hout
    simp only [get_match_odds, hk]
    rw [dif_neg]
    rintro ⟨h0, hlt⟩
    rcases hout with h | h
    · exact absurd h0 (not_le.mpr h)
    · exact absurd hlt (not_lt.mpr h)
  · intro data s m hs hm
    simp only [get_match_odds, hs] at hm
    cases hf : data.find? (fun m => containsSub (strLower s) (strLower m.label)) with
    | none => rw [hf] at hm; cases hm
    | some m' =>
      rw [hf] at hm
      simp only [LookupResult.found.injEq] at hm
      subst hm
      exact find_first data m' hf
  · intro data s hs hnone
    simp only [get_match_odds, hs]
    rw [List.find?_eq_none.mpr (fun m hm => by simp [hnone m hm])]

/-- C6 witness: the integer-index branch applied at the concrete index 1 of
the mock dataset. -/
theorem c6_match_lookup_witness :
    get_match_odds generate_mock_data "1" = .found mock1 := by
  have h := c6_match_lookup.1 generate_mock_data "1" 1 rfl (by norm_num)
    (by norm_num [generate_mock_data])
  simpa [generate_mock_data] using h

/-- C4: the pre-normalization probabilities of the predictor.  With all
three odds present (and the divisions defined), the implied probabilities
are the normalized reciprocals `1/odds` divided by their sum, blended 70/30
into the base model; otherwise the base probabilities are used unmodified
with `draw = draw_factor * 0.5`.  The base pair is strength + 0.10 for the
home side versus strength for the away side (strength defaulting to the
UNKNOWN entry 0.5 for a name not in the table), both divided by their
maximum when it exceeds 1, and `draw_factor = 1 - |base_home - base_away|`. -/
theorem c4_blend :
    (∀ (home_team away_team : String) (o : FullTimeOdds) (h d a : ℚ),
      oddsTriple (some o) = some (h, d, a) → h ≠ 0 → d ≠ 0 → a ≠ 0 →
      1 / h + 1 / d + 1 / a ≠ 0 →
      rawProbs home_team away_team (some o) =
        some (0.7 * (basePair home_team away_team).1 +
                0.3 * ((1 / h) / (1 / h + 1 / d + 1 / a)),
              0.7 * ((1 - |(basePair home_team away_team).1 -
                  (basePair home_team away_team).2|) * 0.5) +
                0.3 * ((1 / d) / (1 / h + 1 / d + 1 / a)),
              0.7 * (basePair home_team away_team).2 +
                0.3 * ((1 / a) / (1 / h + 1 / d + 1 / a)))) ∧
    (∀ (home_team away_team : String) (odds : Option FullTimeOdds),
      oddsTriple odds = none →
      rawProbs home_team away_team odds =
        some ((basePair home_team away_team).1,
              (1 - |(basePair home_team away_team).1 -
                  (basePair home_team away_team).2|) * 0.5,
              (basePair home_team away_team).2)) ∧
    (∀ home_team away_team : String,
      basePair home_team away_team =
        (if max (lookupStrength home_team + 0.1) (lookupStrength away_team) > 1 then
          ((lookupStrength home_team + 0.1) /
              max (lookupStrength home_team + 0.1) (lookupStrength away_team),
            lookupStrength away_team /
              max (lookupStrength home_team + 0.1) (lookupStrength away_team))
        else (lookupStrength home_team + 0.1, lookupStrength away_team))) ∧
    (∀ name : String, team_strengths.lookup name = none → lookupStrength name = 0.5) ∧
    (∀ (name : String) (v : ℚ), team_strengths.lookup name = some v →
      lookupStrength name = v) := by
  refine ⟨?_, ?_, ?_, ?_, ?_⟩
  · intro home_team away_team o h d a hot hh hd ha htot
    simp only [rawProbs, hot]
    rw [if_neg (by push_neg; exact ⟨hh, hd, ha⟩), if_neg htot]
  · intro home_team away_team odds hot
    simp only [rawProbs, hot]
  · intro home_team away_team
    simp only [basePair]
  · intro name hname
    unfold lookupStrength
    rw [hname, Option.getD_none,
      show team_strengths.lookup "UNKNOWN" = some 0.5 from rfl, Option.getD_some]
  · intro name v hname
    unfold lookupStrength
    rw [hname, Option.getD_some]

/-- C4 witness: the blend formula applied at the concrete odds
(2, 3, 4) for Arsenal vs Chelsea, and the no-odds branch at the same
teams. -/
theorem c4_blend_witness :
    rawProbs "Arsenal" "Chelsea" (some ⟨some 2, some 3, some 4⟩) =
      some (0.7 * (basePair "Arsenal" "Chelsea").1 +
              0.3 * ((1 / 2) / ((1 : ℚ) / 2 + 1 / 3 + 1 / 4)),
            0.7 * ((1 - |(basePair "Arsenal" "Chelsea").1 -
                (basePair "Arsenal" "Chelsea").2|) * 0.5) +
              0.3 * ((1 / 3) / ((1 : ℚ) / 2 + 1 / 3 + 1 / 4)),
            0.7 * (basePair "Arsenal" "Chelsea").2 +
              0.3 * ((1 / 4) / ((1 : ℚ) / 2 + 1 / 3 + 1 / 4))) ∧
    rawProbs "Arsenal" "Chelsea" none =
      some ((basePair "Arsenal" "Chelsea").1,
            (1 - |(basePair "Arsenal" "Chelsea").1 -
                (basePair "Arsenal" "Chelsea").2|) * 0.5,
            (basePair "Arsenal" "Chelsea").2) :=
  ⟨c4_blend.1 "Arsenal" "Chelsea" ⟨some 2, some 3, some 4⟩ 2 3 4 rfl
      (by norm_num) (by norm_num) (by norm_num) (by norm_num),
    c4_blend.2.1 "Arsenal" "Chelsea" none rfl⟩

theorem clamp01_nonneg (x : ℚ) : 0 ≤ clamp01 x := le_max_left 0 _

theorem clamp01_pos {x : ℚ} (hx : 0 < x) : 0 < clamp01 x :=
  lt_of_lt_of_le (lt_min one_pos hx) (le_max_right 0 _)

theorem draw_factor_nonneg (home_team away_team : String) :
    0 ≤ 1 - |(basePair home_team away_team).1 - (basePair home_team away_team).2| := by
  obtain ⟨h1, h2, h3, h4⟩ := basePair_bounds home_team away_team
  have : |(basePair home_team away_team).1 - (basePair home_team away_team).2| ≤ 1 :=
    abs_sub_le_iff.mpr ⟨by linarith, by linarith⟩
  linarith

theorem predict_isSome_of_raw {home_team away_team : String}
    {odds : Option FullTimeOdds} {p : ℚ × ℚ × ℚ}
    (hp : rawProbs home_team away_team odds = some p)
    (h1 : 0 < p.1) (h2 : 0 ≤ p.2.1) (h3 : 0 < p.2.2)
    {d1 d2 d3 : ℚ} (hd1 : |d1| ≤ 0.05) (hd2 : |d2| ≤ 0.05) (hd3 : |d3| ≤ 0.05) :
    (predict_match_outcome home_team away_team odds d1 d2 d3).isSome := by
  have htot : p.1 + p.2.1 + p.2.2 ≠ 0 := ne_of_gt (by linarith)
  obtain ⟨q, hq⟩ := Option.isSome_iff_exists.mp (normalize3_isSome htot)
  have hsum := normalize3_sum hq
  obtain ⟨⟨hq1l, hq1u⟩, ⟨hq2l, hq2u⟩, ⟨hq3l, hq3u⟩⟩ :=
    normalize3_mem_unit hq (le_of_lt h1) h2 (le_of_lt h3)
  have hd1l : -(1 / 20) ≤ d1 := by rw [abs_le] at hd1; linarith [hd1.1]
  have hd2l : -(1 / 20) ≤ d2 := by rw [abs_le] at hd2; linarith [hd2.1]
  have hd3l : -(1 / 20) ≤ d3 := by rw [abs_le] at hd3; linarith [hd3.1]
  have hc1 : 0 ≤ clamp01 (q.1 + d1) := clamp01_nonneg _
  have hc2 : 0 ≤ clamp01 (q.2.1 + d2) := clamp01_nonneg _
  have hc3 : 0 ≤ clamp01 (q.2.2 + d3) := clamp01_nonneg _
  have hbig : 1 / 3 ≤ q.1 ∨ 1 / 3 ≤ q.2.1 ∨ 1 / 3 ≤ q.2.2 := by
    by_contra hcon
    push_neg at hcon
    obtain ⟨hb1, hb2, hb3⟩ := hcon
    linarith
  have hkey : 0 < clamp01 (q.1 + d1) + clamp01 (q.2.1 + d2) + clamp01 (q.2.2 + d3) := by
    rcases hbig with hb | hb | hb
    · have := clamp01_pos (show 0 < q.1 + d1 by linarith)
      linarith
    · have := clamp01_pos (show 0 < q.2.1 + d2 by linarith)
      linarith
    · have := clamp01_pos (show 0 < q.2.2 + d3 by linarith)
      linarith
  obtain ⟨r, hr⟩ := Option.isSome_iff_exists.mp
    (@normalize3_isSome
      (clamp01 (q.1 + d1), clamp01 (q.2.1 + d2), clamp01 (q.2.2 + d3))
      (ne_of_gt hkey))
  have hper : perturbedProbs home_team away_team odds d1 d2 d3 = some r := by
    rw [perturbedProbs, normedProbs, hp, Option.some_bind, hq, Option.some_bind]
    exact hr
  rw [predict_match_outcome, hper, Option.map_some']
  rfl

/-- C10 counterexample: the claim says the call returns without raising
whenever all three odds values are present and nonzero.  With odds
(-1, 2, 2) - all present, all nonzero - the reciprocals sum to
`1/(-1) + 1/2 + 1/2 = 0` and the normalization at ml_predictions.py line 79
divides by zero, so the call raises (modelled as `none`). -/
theorem c10_counterexample :
    predict_match_outcome "A" "B" (some ⟨some (-1), some 2, some 2⟩) 0 0 0 = none ∧
    (-1 : ℚ) ≠ 0 ∧ (2 : ℚ) ≠ 0 := by
  refine ⟨?_, by norm_num, by norm_num⟩
  have hraw : rawProbs "A" "B" (some ⟨some (-1), some 2, some 2⟩) = none := by
    simp only [rawProbs, oddsTriple]
    rw [if_neg (by norm_num), if_pos (by norm_num)]
  rw [predict_match_outcome, perturbedProbs, normedProbs, hraw]
  rfl

/-- C10 (amended): with perturbation samples in the `uniform(-0.05, 0.05)`
range, predict_match_outcome returns without raising whenever the odds are
absent, lack one of the home/draw/away keys, or have a null value among
them (in all those cases the odds guard fails), and whenever all three
values are present and strictly positive; but when all three values are
present and any one equals 0.0, the reciprocal computation divides by zero
and the call raises instead of returning - the division is guarded only by
presence, not by value. -/
theorem c10_guard (home_team away_team : String) (odds : Option FullTimeOdds)
    (d1 d2 d3 : ℚ) (hd1 : |d1| ≤ 0.05) (hd2 : |d2| ≤ 0.05) (hd3 : |d3| ≤ 0.05) :
    (oddsTriple odds = none →
      (predict_match_outcome home_team away_team odds d1 d2 d3).isSome) ∧
    (∀ h d a : ℚ, oddsTriple odds = some (h, d, a) → 0 < h → 0 < d → 0 < a →
      (predict_match_outcome home_team away_team odds d1 d2 d3).isSome) ∧
    (∀ h d a : ℚ, oddsTriple odds = some (h, d, a) → h = 0 ∨ d = 0 ∨ a = 0 →
      predict_match_outcome home_team away_team odds d1 d2 d3 = none) := by
  obtain ⟨hb1, hb2, hb3, hb4⟩ := basePair_bounds home_team away_team
  have hdf := draw_factor_nonneg home_team away_team
  refine ⟨?_, ?_, ?_⟩
  · intro hot
    have hraw : rawProbs home_team away_team odds =
        some ((basePair home_team away_team).1,
          (1 - |(basePair home_team away_team).1 -
              (basePair home_team away_team).2|) * 0.5,
          (basePair home_team away_team).2) := by
      simp only [rawProbs, hot]
    exact predict_isSome_of_raw hraw hb1
      (mul_nonneg hdf (by norm_num)) hb3 hd1 hd2 hd3
  · intro h d a hot hh hd ha
    have htot : 0 < 1 / h + 1 / d + 1 / a := by positivity
    have hraw : rawProbs home_team away_team odds =
        some (0.7 * (basePair home_team away_team).1 +
                0.3 * ((1 / h) / (1 / h + 1 / d + 1 / a)),
              0.7 * ((1 - |(basePair home_team away_team).1 -
                  (basePair home_team away_team).2|) * 0.5) +
                0.3 * ((1 / d) / (1 / h + 1 / d + 1 / a)),
              0.7 * (basePair home_team away_team).2 +
                0.3 * ((1 / a) / (1 / h + 1 / d + 1 / a))) := by
      simp only [rawProbs, hot]
      rw [if_neg (by push_neg; exact ⟨ne_of_gt hh, ne_of_gt hd, ne_of_gt ha⟩),
        if_neg (ne_of_gt htot)]
    have hih : 0 < (1 / h) / (1 / h + 1 / d + 1 / a) := by positivity
    have hid : 0 < (1 / d) / (1 / h + 1 / d + 1 / a) := by positivity
    have hia : 0 < (1 / a) / (1 / h + 1 / d + 1 / a) := by positivity
    have t1 := mul_pos (show (0 : ℚ) < 0.7 by norm_num) hb1
    have t2 := mul_pos (show (0 : ℚ) < 0.3 by norm_num) hih
    have t3 := mul_nonneg (show (0 : ℚ) ≤ 0.7 by norm_num)
      (mul_nonneg hdf (show (0 : ℚ) ≤ 0.5 by norm_num))
    have t4 := mul_pos (show (0 : ℚ) < 0.3 by norm_num) hid
    have t5 := mul_pos (show (0 : ℚ) < 0.7 by norm_num) hb3
    have t6 := mul_pos (show (0 : ℚ) < 0.3 by norm_num) hia
    exact predict_isSome_of_raw hraw (by linarith) (by linarith) (by linarith)
      hd1 hd2 hd3
  · intro h d a hot hzero
    have hraw : rawProbs home_team away_team odds = none := by
      simp only [rawProbs, hot]
      rw [if_pos hzero]
    rw [predict_match_outcome, perturbedProbs, normedProbs, hraw]
    rfl

/-- C10 witness: the amended theorem applied with zero perturbation at the
three concrete odds shapes - absent odds, positive odds (2, 3, 4), and a
zero home odds value. -/
theorem c10_guard_witness :
    (predict_match_outcome "A" "B" none 0 0 0).isSome ∧
    (predict_match_outcome "A" "B" (some ⟨some 2, some 3, some 4⟩) 0 0 0).isSome ∧
    predict_match_outcome "A" "B" (some ⟨some 0, some 2, some 2⟩) 0 0 0 = none := by
  have hd : |(0 : ℚ)| ≤ 0.05 := by norm_num
  refine ⟨(c10_guard "A" "B" none 0 0 0 hd hd hd).1 rfl,
    (c10_guard "A" "B" (some ⟨some 2, some 3, some 4⟩) 0 0 0 hd hd hd).2.1
      2 3 4 rfl (by norm_num) (by norm_num) (by norm_num),
    (c10_guard "A" "B" (some ⟨some 0, some 2, some 2⟩) 0 0 0 hd hd hd).2.2
      0 2 2 rfl (Or.inl rfl)⟩

/-- C5: the three outcome probabilities sum to 1 within 1e-6 after the
deterministic normalization (in exact rational arithmetic the sum is
exactly 1 whenever the step is reached), and within 1e-3 after the
perturbation, clamping, re-normalization and 3-decimal rounding, for every
input on which predict returns. -/
theorem c5_sums (home_team away_team : String) (odds : Option FullTimeOdds)
    (d1 d2 d3 : ℚ) :
    (∀ q : ℚ × ℚ × ℚ, normedProbs home_team away_team odds = some q →
      |q.1 + q.2.1 + q.2.2 - 1| ≤ 1 / 1000000) ∧
    (∀ pred : Prediction,
      predict_match_outcome home_team away_team odds d1 d2 d3 = some pred →
      |pred.prob_home + pred.prob_draw + pred.prob_away - 1| ≤ 1 / 1000) := by
  constructor
  · intro q hq
    rw [normedProbs] at hq
    cases hraw : rawProbs home_team away_team odds with
    | none => rw [hraw] at hq; cases hq
    | some p =>
      rw [hraw, Option.some_bind] at hq
      rw [normalize3_sum hq]
      norm_num
  · intro pred hpred
    rw [predict_match_outcome] at hpred
    cases hper : perturbedProbs home_team away_team odds d1 d2 d3 with
    | none => rw [hper] at hpred; cases hpred
    | some r =>
      rw [hper, Option.map_some'] at hpred
      have hsum : r.1 + r.2.1 + r.2.2 = 1 := by
        rw [perturbedProbs] at hper
        cases hn : normedProbs home_team away_team odds with
        | none => rw [hn] at hper; cases hper
        | some q =>
          rw [hn, Option.some_bind] at hper
          exact normalize3_sum hper
      have hround := round3_sum_near_one hsum
      simp only [Option.some.injEq] at hpred
      rw [← hpred]
      exact hround

/-- C5 witness: both sum bounds at the concrete call
predict_match_outcome "X" "Y" (no odds, zero perturbation), whose step-6
probabilities are (12/31, 9/31, 10/31) and whose rounded output
probabilities are (0.387, 0.290, 0.323). -/
theorem c5_sums_witness :
    |(12 / 31 : ℚ) + 9 / 31 + 10 / 31 - 1| ≤ 1 / 1000000 ∧
    |(387 / 1000 : ℚ) + 29 / 100 + 323 / 1000 - 1| ≤ 1 / 1000 := by
  have h1 : lookupStrength "X" = 0.5 := rfl
  have h2 : lookupStrength "Y" = 0.5 := rfl
  have hraw : rawProbs "X" "Y" none = some (0.6, 0.45, 0.5) := by
    simp only [rawProbs, oddsTriple, basePair, h1, h2]
    rw [if_neg (by rw [max_def]; norm_num)]
    norm_num [abs_of_nonneg]
  have hq : normedProbs "X" "Y" none = some (12 / 31, 9 / 31, 10 / 31) := by
    rw [normedProbs, hraw, Option.some_bind]
    simp only [normalize3]
    rw [if_neg (by norm_num)]
    norm_num
  have hper : perturbedProbs "X" "Y" none 0 0 0 = some (12 / 31, 9 / 31, 10 / 31) := by
    rw [perturbedProbs, hq, Option.some_bind]
    norm_num [clamp01, normalize3, min_def, max_def]
  have r1 : pyRound3 ((12 : ℚ) / 31) = 387 / 1000 := by
    have hf : ⌊(12 : ℚ) / 31 * 1000⌋ = 387 := by norm_num
    simp only [pyRound3, roundHalfEven, hf]
    rw [if_pos (by push_cast; norm_num)]
    norm_num
  have r2 : pyRound3 ((9 : ℚ) / 31) = 29 / 100 := by
    have hf : ⌊(9 : ℚ) / 31 * 1000⌋ = 290 := by norm_num
    simp only [pyRound3, roundHalfEven, hf]
    rw [if_pos (by push_cast; norm_num)]
    norm_num
  have r3 : pyRound3 ((10 : ℚ) / 31) = 323 / 1000 := by
    have hf : ⌊(10 : ℚ) / 31 * 1000⌋ = 322 := by norm_num
    simp only [pyRound3, roundHalfEven, hf]
    rw [if_neg (by push_cast; norm_num), if_pos (by push_cast; norm_num)]
    norm_num
  have rc : pyRound1 ((387 : ℚ) / 10) = 387 / 10 := by
    have hf : ⌊(387 : ℚ) / 10 * 10⌋ = 387 := by norm_num
    simp only [pyRound1, roundHalfEven, hf]
    rw [if_pos (by push_cast; norm_num)]
    norm_num
  have hpredict : predict_match_outcome "X" "Y" none 0 0 0 =
      some ⟨"home_win", "X Win", 387 / 10, 387 / 1000, 29 / 100, 323 / 1000⟩ := by
    rw [predict_match_outcome, hper, Option.map_some']
    simp only [r1, r2, r3, mostLikely]
    norm_num
    exact ⟨rfl, rc⟩
  exact ⟨(c5_sums "X" "Y" none 0 0 0).1 (12 / 31, 9 / 31, 10 / 31) hq,
    (c5_sums "X" "Y" none 0 0 0).2
      ⟨"home_win", "X Win", 387 / 10, 387 / 1000, 29 / 100, 323 / 1000⟩ hpredict⟩

/-- The claim's condition on one secondary-market field of match `i`: the
field is null exactly when the market's own extracted list has no entry at
index `i`, and is the float-parse of that entry otherwise. -/
def marketFieldSpec (v : Option ℚ) (l : List String) (i : ℕ) : Prop :=
  (v = none ↔ l.length ≤ i) ∧ ∀ s, l[i]? = some s → v = pyFloat s

/-- Extraction input carrying a non-numeric secondary-market token: one
match worth of teams, timestamps and full-time odds, with "abc" as the
first double-chance entry. -/
def badTokenInput : ExtractedInput :=
  ⟨["A", "B"], ["01/02/03 - 04:05"], ["1.5", "2.5", "3.5"],
   ["abc"], [], [], [], [], [], []⟩

/-- C1 counterexample: the claim says extraction returns exactly
`n = min(pairs, full-time triples, timestamps)` records, each
secondary-market field holding the float-parse of its list entry when that
entry exists.  The secondary-market lists are never numerically filtered:
on the entry "abc" the conversion `float(dc_1x[i])` raises, the whole
extraction fails over to the mock fallback, and the response has 3 records
instead of n = 1. -/
theorem c1_counterexample :
    structureResults badTokenInput = none ∧
    scrape_sportpesa (some badTokenInput) = generate_mock_data ∧
    (scrape_sportpesa (some badTokenInput)).length ≠
      min (min (team_pairs badTokenInput.teams).length
          (group3 (List.filter isNumericToken badTokenInput.full_time_raw)).length)
        (List.filter timestampFilterKeep badTokenInput.raw_times).length := by
  refine ⟨rfl, rfl, ?_⟩
  have h1 : (scrape_sportpesa (some badTokenInput)).length = 3 := rfl
  have h2 : min (min (team_pairs badTokenInput.teams).length
      (group3 (List.filter isNumericToken badTokenInput.full_time_raw)).length)
      (List.filter timestampFilterKeep badTokenInput.raw_times).length = 1 := rfl
  rw [h1, h2]
  omega

/-- C1 (amended): for every extracted input whose secondary-market entries
at indices below `n` are float-parseable, extraction succeeds and returns
exactly `n = min(number of team pairs, number of full-time triples, number
of filtered timestamps)` records, and each record's secondary-market fields
(double-chance 1X/X2/12, over/under, btts yes/no) are null exactly when
that market's own list has no entry at the match's index, and are the
float-parsed entry otherwise.  (Without the parseability restriction the
conversion raises and the whole extraction falls back to the mock data -
see the counterexample.) -/
theorem c1_alignment (inp : ExtractedInput)
    (hpar : ∀ l ∈ [inp.dc_1x, inp.dc_x2, inp.dc_12, inp.ou_over, inp.ou_under,
        inp.btts_yes, inp.btts_no],
      ∀ i < min (min (team_pairs inp.teams).length
            (group3 (List.filter isNumericToken inp.full_time_raw)).length)
          (List.filter timestampFilterKeep inp.raw_times).length,
        ∀ s, l[i]? = some s → (pyFloat s).isSome) :
    ∃ results, structureResults inp = some results ∧
      results.length = min (min (team_pairs inp.teams).length
          (group3 (List.filter isNumericToken inp.full_time_raw)).length)
        (List.filter timestampFilterKeep inp.raw_times).length ∧
      ∀ i m, results[i]? = some m →
        marketFieldSpec m.double_chance.oneX inp.dc_1x i ∧
        marketFieldSpec m.double_chance.xTwo inp.dc_x2 i ∧
        marketFieldSpec m.double_chance.oneTwo inp.dc_12 i ∧
        marketFieldSpec m.over_under.over inp.ou_over i ∧
        marketFieldSpec m.over_under.under inp.ou_under i ∧
        marketFieldSpec m.btts.yes inp.btts_yes i ∧
        marketFieldSpec m.btts.no inp.btts_no i := by
  have hlabels : (match_labels inp.teams).length = (team_pairs inp.teams).length := by
    rw [match_labels_length, team_pairs_length]
  have hmineq : min (min (match_labels inp.teams).length
      (group3 (List.filter isNumericToken inp.full_time_raw)).length)
      (List.filter timestampFilterKeep inp.raw_times).length =
    min (min (team_pairs inp.teams).length
      (group3 (List.filter isNumericToken inp.full_time_raw)).length)
      (List.filter timestampFilterKeep inp.raw_times).length := by
    rw [hlabels]
  have hbuild : ∀ i ∈ List.range (min (min (match_labels inp.teams).length
      (group3 (List.filter isNumericToken inp.full_time_raw)).length)
      (List.filter timestampFilterKeep inp.raw_times).length),
      (buildMatch (match_labels inp.teams) (team_pairs inp.teams)
        (List.filter timestampFilterKeep inp.raw_times)
        (group3 (List.filter isNumericToken inp.full_time_raw))
        inp.dc_1x inp.dc_x2 inp.dc_12 inp.ou_over inp.ou_under
        inp.btts_yes inp.btts_no i).isSome := by
    intro i hi
    rw [List.mem_range] at hi
    have hiL : i < (match_labels inp.teams).length :=
      lt_of_lt_of_le hi (le_trans (min_le_left _ _) (min_le_left _ _))
    have hiG : i < (group3 (List.filter isNumericToken inp.full_time_raw)).length :=
      lt_of_lt_of_le hi (le_trans (min_le_left _ _) (min_le_right _ _))
    have hiP : i < (team_pairs inp.teams).length := hlabels ▸ hiL
    have hin : i < min (min (team_pairs inp.teams).length
        (group3 (List.filter isNumericToken inp.full_time_raw)).length)
        (List.filter timestampFilterKeep inp.raw_times).length := hmineq ▸ hi
    have hft : ∀ k : ℕ, (ftFieldAt
        (group3 (List.filter isNumericToken inp.full_time_raw)) i k).isSome := by
      intro k
      apply ftFieldAt_isSome
      intro g hg s hs
      have hgmem : g ∈ group3 (List.filter isNumericToken inp.full_time_raw) :=
        List.getElem?_mem hg
      have hsmem : s ∈ List.filter isNumericToken inp.full_time_raw :=
        group3_mem_mem _ g hgmem s (List.getElem?_mem hs)
      exact isNumericToken_pyFloat (List.mem_filter.mp hsmem).2
    apply buildMatch_isSome
    · rw [List.getElem?_eq_getElem hiL]; rfl
    · rw [List.getElem?_eq_getElem hiP]; rfl
    · exact hft 0
    · exact hft 1
    · exact hft 2
    · exact fieldAt_isSome (hpar inp.dc_1x (by simp) i hin)
    · exact fieldAt_isSome (hpar inp.dc_x2 (by simp) i hin)
    · exact fieldAt_isSome (hpar inp.dc_12 (by simp) i hin)
    · exact fieldAt_isSome (hpar inp.ou_over (by simp) i hin)
    · exact fieldAt_isSome (hpar inp.ou_under (by simp) i hin)
    · exact fieldAt_isSome (hpar inp.btts_yes (by simp) i hin)
    · exact fieldAt_isSome (hpar inp.btts_no (by simp) i hin)
  obtain ⟨results, hres⟩ := Option.isSome_iff_exists.mp
    (optionMapList_isSome _ _ hbuild)
  have hres' : structureResults inp = some results := by
    simp only [structureResults]
    exact hres
  obtain ⟨hlen, hget⟩ := optionMapList_eq_some _ _ _ hres
  refine ⟨results, hres', ?_, ?_⟩
  · rw [hlen, List.length_range, hmineq]
  · intro i m hm
    obtain ⟨hi, hgm⟩ := List.getElem?_eq_some.mp hm
    have hn' : i < (List.range (min (min (match_labels inp.teams).length
        (group3 (List.filter isNumericToken inp.full_time_raw)).length)
        (List.filter timestampFilterKeep inp.raw_times).length)).length := by
      rw [← hlen]; exact hi
    have hb := hget i hn' hi
    simp only [List.get_eq_getElem, List.getElem_range] at hb
    rw [hgm] at hb
    obtain ⟨hid, hlab, h1x, hx2, h12, hov, hun, hys, hnn⟩ := buildMatch_eq_some hb
    exact ⟨fieldAt_spec h1x, fieldAt_spec hx2, fieldAt_spec h12,
      fieldAt_spec hov, fieldAt_spec hun, fieldAt_spec hys, fieldAt_spec hnn⟩

/-- Extraction input with two matches worth of team names, timestamps and
full-time odds, and a single parseable double-chance entry: match 0 gets a
value, match 1 gets null. -/
def alignedInput : ExtractedInput :=
  ⟨["A", "B", "C", "D"], ["01/02/03 - 04:05", "02/03/04 - 05:06"],
   ["1.5", "2.5", "3.5", "1.1", "2.2", "3.3"],
   ["1.2"], [], [], [], [], [], []⟩

/-- C1 witness: the amended claim applied to the concrete two-match input,
whose only non-empty secondary-market list is a parseable singleton. -/
theorem c1_alignment_witness :
    ∃ results, structureResults alignedInput = some results ∧
      results.length = min (min (team_pairs alignedInput.teams).length
          (group3 (List.filter isNumericToken alignedInput.full_time_raw)).length)
        (List.filter timestampFilterKeep alignedInput.raw_times).length ∧
      ∀ i m, results[i]? = some m →
        marketFieldSpec m.double_chance.oneX alignedInput.dc_1x i ∧
        marketFieldSpec m.double_chance.xTwo alignedInput.dc_x2 i ∧
        marketFieldSpec m.double_chance.oneTwo alignedInput.dc_12 i ∧
        marketFieldSpec m.over_under.over alignedInput.ou_over i ∧
        marketFieldSpec m.over_under.under alignedInput.ou_under i ∧
        marketFieldSpec m.btts.yes alignedInput.btts_yes i ∧
        marketFieldSpec m.btts.no alignedInput.btts_no i := by
  apply c1_alignment alignedInput
  intro l hl i hi s hs
  simp only [alignedInput, List.mem_cons, List.not_mem_nil, or_false] at hl
  rcases hl with rfl | rfl | rfl | rfl | rfl | rfl | rfl
  · cases i with
    | zero => cases hs; rfl
    | succ j => simp at hs
  all_goals simp at hs
